import Mathlib

/-!
# Verification of the go-nxos HTTP client core

Shallow embedding of the netascode/go-nxos client library (src/client.go,
src/req.go) together with proofs about its retry loop, backoff policy,
authentication decision, URL construction and JSON body builder.

The JSON path engine (the gjson/sjson libraries) is an external collaborator
of the repository; it is modelled from the specification's PathJSON contract
(spec §4.1): dotted paths, object keys, numeric segments indexing arrays,
missing paths reading as the zero value.
-/

set_option maxHeartbeats 1000000

namespace Nxos

/-! ## JSON documents and the path engine -/

/-- Modelled from the spec: a path-addressable JSON document (the external
gjson/sjson engine operates on JSON text; the model works on its parse tree).
Objects are ordered key/value lists, as in JSON text. -/
inductive Json where
  | null : Json
  | bool : Bool → Json
  | num : ℚ → Json
  | str : String → Json
  | arr : List Json → Json
  | obj : List (String × Json) → Json

/-- First binding of a key in an object's field list (JSON objects read
front-to-back). -/
def lookupKey : List (String × Json) → String → Option Json
  | [], _ => none
  | (k, v) :: rest, key => if k = key then some v else lookupKey rest key

/-- Replace the first binding of `key`, or append a new binding. -/
def setKey : List (String × Json) → String → Json → List (String × Json)
  | [], key, v => [(key, v)]
  | (k, w) :: rest, key, v =>
      if k = key then (key, v) :: rest else (k, w) :: setKey rest key v

/-- Remove every binding of `key` from an object's field list. -/
def removeKey (fs : List (String × Json)) (key : String) : List (String × Json) :=
  fs.filter (fun kv => kv.1 ≠ key)

/-- Write `v` at index `i` of an array, padding with `null` when the array is
shorter (the engine creates array elements as needed). -/
def padSet : List Json → Nat → Json → List Json
  | [], 0, v => [v]
  | [], n + 1, v => Json.null :: padSet [] n v
  | _ :: rest, 0, v => v :: rest
  | x :: rest, n + 1, v => x :: padSet rest n v

/-- A path segment made of digits indexes an array; anything else is an
object key. -/
def segIndex (s : String) : Option Nat :=
  if s.data.all Char.isDigit && !s.data.isEmpty then
    some (s.data.foldl (fun n c => n * 10 + (c.toNat - 48)) 0)
  else none

/-- Modelled from the spec: split a dotted path string into its segments. -/
def splitPathAux : List Char → List Char → List String
  | [], acc => [String.mk acc.reverse]
  | c :: cs, acc =>
      if c = '.' then String.mk acc.reverse :: splitPathAux cs []
      else splitPathAux cs (c :: acc)

/-- A dotted path such as `"imdata.0.error.attributes.code"` as a segment
list. -/
def splitPath (s : String) : List String :=
  splitPathAux s.data []

/-- Modelled from the spec: `Get(doc, path)` — read the value at a path;
a missing path yields the zero value (`null`), never an error. -/
def jsonGet : Json → List String → Json
  | d, [] => d
  | d, k :: rest =>
      match d with
      | .obj fs =>
          match lookupKey fs k with
          | some child => jsonGet child rest
          | none => .null
      | .arr xs =>
          match segIndex k with
          | some i => jsonGet (xs.getD i .null) rest
          | none => .null
      | _ => .null

/-- Modelled from the spec: `Set(doc, path, value)` — write a value at a path,
creating intermediate objects (or arrays, for numeric segments) as needed;
non-object intermediate values are replaced. -/
def jsonSet : Json → List String → Json → Json
  | _, [], v => v
  | d, k :: rest, v =>
      match d with
      | .obj fs =>
          let child := match lookupKey fs k with
            | some c => c
            | none => Json.null
          .obj (setKey fs k (jsonSet child rest v))
      | .arr xs =>
          match segIndex k with
          | some i => .arr (padSet xs i (jsonSet (xs.getD i .null) rest v))
          | none => .obj [(k, jsonSet .null rest v)]
      | _ =>
          match segIndex k with
          | some i => .arr (padSet [] i (jsonSet .null rest v))
          | none => .obj [(k, jsonSet .null rest v)]

/-- Modelled from the spec: `Delete(doc, path)` — remove the value at a path;
a missing path is a silent no-op. -/
def jsonDelete : Json → List String → Json
  | _, [] => .null
  | d, k :: rest =>
      match d with
      | .obj fs =>
          match rest with
          | [] => .obj (removeKey fs k)
          | _ :: _ =>
              match lookupKey fs k with
              | some child => .obj (setKey fs k (jsonDelete child rest))
              | none => .obj fs
      | .arr xs =>
          match segIndex k with
          | some i =>
              match rest with
              | [] => .arr (xs.set i .null)
              | _ :: _ => .arr (xs.set i (jsonDelete (xs.getD i .null) rest))
          | none => .arr xs
      | _ => d

/-- The `.Str` accessor of a gjson result: the string value of a string node,
`""` for everything else. -/
def jsonStr : Json → String
  | .str s => s
  | _ => ""

/-- `Res.Get` (src/client.go): read a dotted gjson path from a result. -/
def resGet (res : Json) (path : String) : Json :=
  jsonGet res (splitPath path)

/-! ## The Body builder (src/req.go:16-47)

`Body` wraps the JSON engine for building body strings. The Go struct holds
the serialized text in its `Str` field; the model holds the parse of that
text. The Go zero value `Body{}` holds the empty document. -/

structure Body where
  Str : Json

/-- `Body{}`: the zero value, whose `Str` is the empty document. -/
def emptyBody : Body := ⟨Json.null⟩

/-- `Body.Set` (src/req.go:21-25): set a JSON path to a string value. -/
def Body.Set (body : Body) (path value : String) : Body :=
  ⟨jsonSet body.Str (splitPath path) (.str value)⟩

/-- `Body.SetRaw` (src/req.go:31-35): set a JSON path to a raw JSON value
(spliced in unquoted; the model takes the raw text already parsed). -/
def Body.SetRaw (body : Body) (path : String) (rawValue : Json) : Body :=
  ⟨jsonSet body.Str (splitPath path) rawValue⟩

/-- `Body.Delete` (src/req.go:38-42): delete a JSON path. -/
def Body.Delete (body : Body) (path : String) : Body :=
  ⟨jsonDelete body.Str (splitPath path)⟩

/-- `Body.Res` (src/req.go:45-47): parse the built text into a result. -/
def Body.Res (body : Body) : Json :=
  body.Str

/-- Go call semantics of `b.Set(path, value)` where `b` is a variable of the
caller (src/req.go:21-25): the receiver is a value (not a pointer), so the
method body mutates its own copy and returns it. The pair is
(returned value, caller's variable after the call). -/
def Body.setCall (caller : Body) (path value : String) : Body × Body :=
  let receiver := caller
  let receiver := { receiver with Str := jsonSet receiver.Str (splitPath path) (.str value) }
  (receiver, caller)

/-- Go call semantics of `b.SetRaw(path, rawValue)` (src/req.go:31-35),
value receiver as in `Body.setCall`. -/
def Body.setRawCall (caller : Body) (path : String) (rawValue : Json) : Body × Body :=
  let receiver := caller
  let receiver := { receiver with Str := jsonSet receiver.Str (splitPath path) rawValue }
  (receiver, caller)

/-- Go call semantics of `b.Delete(path)` (src/req.go:38-42), value receiver
as in `Body.setCall`. -/
def Body.deleteCall (caller : Body) (path : String) : Body × Body :=
  let receiver := caller
  let receiver := { receiver with Str := jsonDelete receiver.Str (splitPath path) }
  (receiver, caller)

/-! ## Requests and URLs (src/client.go:131-142, src/req.go:49-72) -/

/-- The per-request flags of `Req` (src/req.go:50-60). -/
structure Req where
  refresh : Bool
  logPayload : Bool

/-- `NewReq` defaults (src/client.go:133-137): `Refresh: true`,
`LogPayload: true`, then the modifiers are applied in order. -/
def NewReqFlags (mods : List (Req → Req)) : Req :=
  mods.foldl (fun r m => m r) { refresh := true, logPayload := true }

/-- `NoRefresh` (src/req.go:64-66): sets `Refresh = false`. -/
def NoRefresh (r : Req) : Req :=
  { r with refresh := false }

/-- `NoLogPayload` (src/req.go:70-72): sets `LogPayload = false`. -/
def NoLogPayload (r : Req) : Req :=
  { r with logPayload := false }

/-- `NewReq` URL construction (src/client.go:132):
`client.Url + uri + ".json"`. -/
def newReqUrl (baseUrl uri : String) : String :=
  baseUrl ++ uri ++ ".json"

/-- The URL of a `JsonRpc` request (src/client.go:311): `JsonRpc` builds its
request with `client.NewReq("POST", "/ins", ...)`. -/
def jsonRpcUrl (baseUrl : String) : String :=
  newReqUrl baseUrl "/ins"

/-! ## Backoff (src/client.go:362-383) -/

/-- The `Backoff` configuration fields of `Client` (src/client.go:47-53).
`BackoffDelayFactor` is a `float64`; the model uses exact rationals. -/
structure BackoffCfg where
  maxRetries : Int
  backoffMinDelay : Int
  backoffMaxDelay : Int
  backoffDelayFactor : ℚ

/-- Seconds to nanoseconds: `time.Duration(x) * time.Second`
(src/client.go:369-370). -/
def nanos (secs : Int) : ℚ :=
  (secs : ℚ) * 1000000000

/-- `Backoff`'s retry decision (src/client.go:364-367): it returns `false`
(no further attempt) exactly when `attempts >= client.MaxRetries`. -/
def backoffOk (maxRetries : Int) (attempts : Nat) : Bool :=
  decide ((attempts : Int) < maxRetries)

/-- The capped base delay (src/client.go:372-376):
`min * factor^attempts`, clamped to `maxDelay`. -/
def backoffBase (cfg : BackoffCfg) (attempts : Nat) : ℚ :=
  let mn := nanos cfg.backoffMinDelay
  let b := mn * cfg.backoffDelayFactor ^ attempts
  if b > nanos cfg.backoffMaxDelay then nanos cfg.backoffMaxDelay else b

/-- The slept delay (src/client.go:377): with `r` the value drawn by
`rand.Float64()` (in `[0,1)`), the delay is
`(r/2 + 0.5) * (base - min) + min`. -/
def backoffDelay (cfg : BackoffCfg) (attempts : Nat) (r : ℚ) : ℚ :=
  let mn := nanos cfg.backoffMinDelay
  (r / 2 + 1 / 2) * (backoffBase cfg attempts - mn) + mn

/-! ## The Do retry loop (src/client.go:149-216) -/

/-- The observable outcome of one transport attempt inside `Do`:
`client.HttpClient.Do` fails (src/client.go:166-176), reading the response
body fails (src/client.go:178-189), or an HTTP response with a status code
and a parsed JSON body is obtained. -/
inductive Attempt where
  | connErr (msg : String)
  | readErr (msg : String)
  | httpRes (statusCode : Int) (body : Json)

/-- The error values `Do` can return. -/
inductive DoErr where
  | connErr (msg : String)
  | readErr (msg : String)
  | statusErr (code : Int)
  | jsonErr (raw : Json)

/-- Result of `Do`: the parsed result, the returned error, the number of
backoff sleeps performed, and the number of transport attempts issued. -/
structure LoopOut where
  res : Json
  err : Option DoErr
  sleeps : Nat
  tries : Nat

/-- The loop-exit test on a status code (src/client.go:195): the loop breaks
when `(StatusCode < 500 || StatusCode > 504) && StatusCode != 405`. -/
def breakStatus (statusCode : Int) : Bool :=
  (decide (statusCode < 500) || decide (statusCode > 504)) && decide (statusCode ≠ 405)

/-- The retry loop of `Do` (src/client.go:158-208), with the attempt counter
starting at `attempts`. `tr n` is the outcome of the transport exchange of
attempt `n`. Each failed attempt consults `Backoff` (modelled by
`backoffOk`): if it disallows another attempt the error is returned, else one
sleep is performed and the loop continues with `attempts + 1`. A response
with a `breakStatus` code exits the loop carrying its body. -/
def doLoop (mr : Int) (tr : Nat → Attempt) (attempts : Nat) : LoopOut :=
  match tr attempts with
  | .connErr msg =>
      if h : backoffOk mr attempts = true then
        let out := doLoop mr tr (attempts + 1)
        { out with sleeps := out.sleeps + 1, tries := out.tries + 1 }
      else
        { res := .null, err := some (.connErr msg), sleeps := 0, tries := 1 }
  | .readErr msg =>
      if h : backoffOk mr attempts = true then
        let out := doLoop mr tr (attempts + 1)
        { out with sleeps := out.sleeps + 1, tries := out.tries + 1 }
      else
        { res := .null, err := some (.readErr msg), sleeps := 0, tries := 1 }
  | .httpRes s b =>
      if breakStatus s then
        { res := b, err := none, sleeps := 0, tries := 1 }
      else if h : backoffOk mr attempts = true then
        let out := doLoop mr tr (attempts + 1)
        { out with sleeps := out.sleeps + 1, tries := out.tries + 1 }
      else
        { res := .null, err := some (.statusErr s), sleeps := 0, tries := 1 }
termination_by (mr - (attempts : Int)).toNat
decreasing_by
  all_goals
    have h' := of_decide_eq_true h
    omega

/-- The error-envelope path checked by `Do` (src/client.go:210). -/
def errorCodePath : List String :=
  splitPath "imdata.0.error.attributes.code"

/-- `res.Get("imdata.0.error.attributes.code").Str` (src/client.go:210). -/
def errorCode (res : Json) : String :=
  jsonStr (jsonGet res errorCodePath)

/-- `Do` (src/client.go:149-216): run the retry loop from attempt 0; when the
loop breaks with a response, a non-empty error-envelope code turns the result
into a JSON error (src/client.go:210-215). -/
def Do (mr : Int) (tr : Nat → Attempt) : LoopOut :=
  let out := doLoop mr tr 0
  match out.err with
  | some _ => out
  | none =>
      if errorCode out.res ≠ "" then { out with err := some (.jsonErr out.res) }
      else out

/-! ## Authentication (src/client.go:318-359) -/

/-- The session state of `Client` (src/client.go:37-39): the current token
and the `LastRefresh` timestamp (modelled in nanoseconds, as
`time.Time`/`time.Duration` count nanoseconds). -/
structure ClientState where
  token : String
  lastRefresh : Int

/-- The token path read by `Login` (src/client.go:329). -/
def loginTokenPath : List String :=
  splitPath "imdata.0.aaaLogin.attributes.token"

/-- `Login` (src/client.go:319-332): run `Do`; on error return it unchanged,
otherwise store the token from the response and set `LastRefresh` to now. -/
def Login (st : ClientState) (now : Int) (mr : Int) (tr : Nat → Attempt) :
    ClientState × Option DoErr :=
  let out := Do mr tr
  match out.err with
  | some e => (st, some e)
  | none => ({ token := jsonStr (jsonGet out.res loginTokenPath), lastRefresh := now }, none)

/-- Which authentication call `Authenticate` performs. -/
inductive AuthCall where
  | login
  | refresh
  | nocall
deriving DecidableEq

/-- The refresh threshold (src/client.go:354): `480 * time.Second` in
nanoseconds. -/
def authThreshold : Int :=
  480 * 1000000000

/-- The decision taken by `Authenticate` (src/client.go:349-359): `Login` if
no token is held, `Refresh` if the elapsed time since `LastRefresh` exceeds
the threshold, otherwise no call. -/
def authDecision (st : ClientState) (now : Int) : AuthCall :=
  if st.token = "" then .login
  else if now - st.lastRefresh > authThreshold then .refresh
  else .nocall

/-- `Authenticate` (src/client.go:349-359) with the outcomes of the `Login`
and `Refresh` calls it may delegate to passed explicitly: returns the
resulting state, the returned error, and which call was made. -/
def Authenticate (st : ClientState) (now : Int)
    (loginOut refreshOut : ClientState × Option DoErr) :
    ClientState × Option DoErr × AuthCall :=
  if st.token = "" then (loginOut.1, loginOut.2, .login)
  else if now - st.lastRefresh > authThreshold then (refreshOut.1, refreshOut.2, .refresh)
  else (st, none, .nocall)

/-- The authentication step performed by `Get` (src/client.go:235-239): after
building the request, `Get` invokes `client.Authenticate()` unconditionally;
`Authenticate` receives no request data, so the decision is a function of the
session state and the clock only — `req.Refresh` is never read. -/
def getAuthDecision (st : ClientState) (now : Int) (req : Req) : AuthCall :=
  authDecision st now

/-- A response body carrying the error envelope, as built by the repository's
own login test (`Body{}.Set("imdata.0.error.attributes.code", "123")`). -/
def sampleErrBody : Json :=
  .obj [("imdata", .arr [.obj [("error", .obj [("attributes", .obj [("code", .str "123")])])]])]

/-! ## Lemmas on the JSON path engine -/

theorem lookupKey_setKey (fs : List (String × Json)) (key : String) (v : Json) :
    lookupKey (setKey fs key v) key = some v := by
  induction fs with
  | nil => simp [setKey, lookupKey]
  | cons kv rest ih =>
      obtain ⟨k, w⟩ := kv
      by_cases h : k = key
      · simp [setKey, h, lookupKey]
      · simp [setKey, h, lookupKey, ih]

theorem lookupKey_removeKey (fs : List (String × Json)) (key : String) :
    lookupKey (removeKey fs key) key = none := by
  induction fs with
  | nil => simp [removeKey, lookupKey]
  | cons kv rest ih =>
      obtain ⟨k, w⟩ := kv
      by_cases h : k = key
      · simpa [removeKey, List.filter_cons, h] using ih
      · simpa [removeKey, List.filter_cons, h, lookupKey] using ih

theorem padSet_getD (i : Nat) (xs : List Json) (v : Json) :
    (padSet xs i v).getD i .null = v := by
  induction i generalizing xs with
  | zero => cases xs <;> rfl
  | succ n ih =>
      cases xs with
      | nil => simpa [padSet, List.getD_cons_succ] using ih []
      | cons x rest => simpa [padSet, List.getD_cons_succ] using ih rest

theorem getD_set_self (xs : List Json) (i : Nat) (y : Json) :
    (xs.set i y).getD i .null = if i < xs.length then y else Json.null := by
  induction xs generalizing i with
  | nil => simp
  | cons x rest ih =>
      cases i with
      | zero => simp
      | succ n => simpa [Nat.succ_lt_succ_iff] using ih n

theorem jsonGet_nil (d : Json) : jsonGet d [] = d := rfl

theorem jsonGet_obj (fs : List (String × Json)) (k : String) (rest : List String) :
    jsonGet (.obj fs) (k :: rest)
      = match lookupKey fs k with
        | some child => jsonGet child rest
        | none => .null := rfl

theorem jsonGet_arr (xs : List Json) (k : String) (rest : List String) :
    jsonGet (.arr xs) (k :: rest)
      = match segIndex k with
        | some i => jsonGet (xs.getD i .null) rest
        | none => .null := rfl

theorem jsonGet_null (k : String) (rest : List String) :
    jsonGet .null (k :: rest) = .null := rfl

theorem jsonDelete_obj_cons (fs : List (String × Json)) (k r : String) (rs : List String) :
    jsonDelete (.obj fs) (k :: r :: rs)
      = match lookupKey fs k with
        | some child => .obj (setKey fs k (jsonDelete child (r :: rs)))
        | none => .obj fs := rfl

theorem jsonDelete_arr_cons (xs : List Json) (k r : String) (rs : List String) :
    jsonDelete (.arr xs) (k :: r :: rs)
      = match segIndex k with
        | some i => .arr (xs.set i (jsonDelete (xs.getD i .null) (r :: rs)))
        | none => .arr xs := rfl

theorem jsonGet_jsonSet (p : List String) : ∀ (d v : Json), jsonGet (jsonSet d p v) p = v := by
  induction p with
  | nil => intro d v; rfl
  | cons k rest ih =>
      intro d v
      have harr : ∀ (xs : List Json) (i : Nat), segIndex k = some i →
          jsonGet (Json.arr (padSet xs i (jsonSet (xs.getD i .null) rest v))) (k :: rest) = v := by
        intro xs i h
        rw [jsonGet_arr, h]
        dsimp only
        rw [padSet_getD]
        exact ih _ v
      have hobjNew : segIndex k = none →
          jsonGet (Json.obj [(k, jsonSet .null rest v)]) (k :: rest) = v := by
        intro h
        rw [jsonGet_obj]
        simp only [lookupKey, if_pos rfl]
        exact ih _ v
      cases d with
      | obj fs =>
          show jsonGet (Json.obj (setKey fs k (jsonSet _ rest v))) (k :: rest) = v
          rw [jsonGet_obj, lookupKey_setKey]
          exact ih _ v
      | arr xs =>
          cases h : segIndex k with
          | some i =>
              show jsonGet (match segIndex k with
                | some i => Json.arr (padSet xs i (jsonSet (xs.getD i .null) rest v))
                | none => Json.obj [(k, jsonSet .null rest v)]) (k :: rest) = v
              rw [h]
              exact harr xs i h
          | none =>
              show jsonGet (match segIndex k with
                | some i => Json.arr (padSet xs i (jsonSet (xs.getD i .null) rest v))
                | none => Json.obj [(k, jsonSet .null rest v)]) (k :: rest) = v
              rw [h]
              exact hobjNew h
      | null =>
          cases h : segIndex k with
          | some i =>
              show jsonGet (match segIndex k with
                | some i => Json.arr (padSet [] i (jsonSet .null rest v))
                | none => Json.obj [(k, jsonSet .null rest v)]) (k :: rest) = v
              rw [h]
              exact harr [] i h
          | none =>
              show jsonGet (match segIndex k with
                | some i => Json.arr (padSet [] i (jsonSet .null rest v))
                | none => Json.obj [(k, jsonSet .null rest v)]) (k :: rest) = v
              rw [h]
              exact hobjNew h
      | bool b =>
          cases h : segIndex k with
          | some i =>
              show jsonGet (match segIndex k with
                | some i => Json.arr (padSet [] i (jsonSet .null rest v))
                | none => Json.obj [(k, jsonSet .null rest v)]) (k :: rest) = v
              rw [h]
              exact harr [] i h
          | none =>
              show jsonGet (match segIndex k with
                | some i => Json.arr (padSet [] i (jsonSet .null rest v))
                | none => Json.obj [(k, jsonSet .null rest v)]) (k :: rest) = v
              rw [h]
              exact hobjNew h
      | num q =>
          cases h : segIndex k with
          | some i =>
              show jsonGet (match segIndex k with
                | some i => Json.arr (padSet [] i (jsonSet .null rest v))
                | none => Json.obj [(k, jsonSet .null rest v)]) (k :: rest) = v
              rw [h]
              exact harr [] i h
          | none =>
              show jsonGet (match segIndex k with
                | some i => Json.arr (padSet [] i (jsonSet .null rest v))
                | none => Json.obj [(k, jsonSet .null rest v)]) (k :: rest) = v
              rw [h]
              exact hobjNew h
      | str t =>
          cases h : segIndex k with
          | some i =>
              show jsonGet (match segIndex k with
                | some i => Json.arr (padSet [] i (jsonSet .null rest v))
                | none => Json.obj [(k, jsonSet .null rest v)]) (k :: rest) = v
              rw [h]
              exact harr [] i h
          | none =>
              show jsonGet (match segIndex k with
                | some i => Json.arr (padSet [] i (jsonSet .null rest v))
                | none => Json.obj [(k, jsonSet .null rest v)]) (k :: rest) = v
              rw [h]
              exact hobjNew h

theorem jsonGet_jsonDelete (p : List String) : ∀ d : Json, jsonGet (jsonDelete d p) p = .null := by
  induction p with
  | nil => intro d; rfl
  | cons k rest ih =>
      intro d
      cases d with
      | obj fs =>
          cases rest with
          | nil =>
              show jsonGet (Json.obj (removeKey fs k)) [k] = .null
              rw [jsonGet_obj, lookupKey_removeKey]
          | cons r rs =>
              rw [jsonDelete_obj_cons]
              cases h : lookupKey fs k with
              | some child =>
                  rw [jsonGet_obj, lookupKey_setKey]
                  exact ih child
              | none =>
                  rw [jsonGet_obj, h]
      | arr xs =>
          cases rest with
          | nil =>
              cases h : segIndex k with
              | some i =>
                  show jsonGet (match segIndex k with
                    | some i => Json.arr (xs.set i .null)
                    | none => Json.arr xs) [k] = .null
                  rw [h, jsonGet_arr, h]
                  dsimp only
                  rw [getD_set_self]
                  split <;> rfl
              | none =>
                  show jsonGet (match segIndex k with
                    | some i => Json.arr (xs.set i .null)
                    | none => Json.arr xs) [k] = .null
                  rw [h, jsonGet_arr, h]
          | cons r rs =>
              rw [jsonDelete_arr_cons]
              cases h : segIndex k with
              | some i =>
                  rw [jsonGet_arr, h]
                  dsimp only
                  rw [getD_set_self]
                  split
                  · exact ih _
                  · exact jsonGet_null r rs
              | none =>
                  rw [jsonGet_arr, h]
      | null =>
          show jsonGet Json.null (k :: rest) = .null
          exact jsonGet_null k rest
      | bool b =>
          show jsonGet (Json.bool b) (k :: rest) = .null
          rfl
      | num q =>
          show jsonGet (Json.num q) (k :: rest) = .null
          rfl
      | str t =>
          show jsonGet (Json.str t) (k :: rest) = .null
          rfl

/-! ## Claim theorems -/

/-- C8: for every document, path and string value, reading the path after
setting it yields the value; reading a path after deleting it yields the
zero value; in particular `Body{}.Set("a.name","a")` read at `"a.name"`
yields `"a"`, and after `Delete("a.name")` that read yields `""`. -/
theorem c8_set_get_roundtrip :
    (∀ (d : Json) (p : List String) (v : Json), jsonGet (jsonSet d p v) p = v) ∧
    (∀ (d : Json) (p : List String), jsonGet (jsonDelete d p) p = .null) ∧
    jsonStr (resGet ((emptyBody.Set "a.name" "a").Res) "a.name") = "a" ∧
    jsonStr (resGet (((emptyBody.Set "a.name" "a").Delete "a.name").Res) "a.name") = "" :=
  ⟨fun d p v => jsonGet_jsonSet p d v, fun d p => jsonGet_jsonDelete p d, rfl, rfl⟩

/-- C10: `Set`, `SetRaw` and `Delete` take the `Body` receiver by value: the
call returns a new `Body` holding the updated document and leaves the
caller's `Body` exactly as it was, so chained builds never clobber earlier
intermediate bodies. -/
theorem c10_body_ops_no_mutation :
    ∀ (b : Body) (p v : String) (raw : Json),
      (Body.setCall b p v).2 = b ∧ (Body.setCall b p v).1 = b.Set p v ∧
      (Body.setRawCall b p raw).2 = b ∧ (Body.setRawCall b p raw).1 = b.SetRaw p raw ∧
      (Body.deleteCall b p).2 = b ∧ (Body.deleteCall b p).1 = b.Delete p :=
  fun b p v raw => ⟨rfl, rfl, rfl, rfl, rfl, rfl⟩

/-- C7 counterexample: the JSON-RPC request does not go to `<base>/ins`;
`JsonRpc` builds its request through `NewReq`, which appends `".json"`
(src/client.go:132, 311). -/
theorem c7_counterexample :
    jsonRpcUrl "https://10.0.0.1" ≠ "https://10.0.0.1" ++ "/ins" := by
  decide

/-- C7 (amended): every path-based call requests the configured base URL plus
the resource path plus the suffix `".json"`; the JSON-RPC operation goes
through the same builder with the fixed path `"/ins"`, so it posts to
`<base>/ins.json`. -/
theorem c7_amended_urls :
    (∀ baseUrl uri : String, newReqUrl baseUrl uri = baseUrl ++ uri ++ ".json") ∧
    (∀ baseUrl : String, jsonRpcUrl baseUrl = newReqUrl baseUrl "/ins") ∧
    jsonRpcUrl "https://10.0.0.1" = "https://10.0.0.1/ins.json" :=
  ⟨fun _ _ => rfl, fun _ => rfl, by decide⟩

/-! ## Backoff delay bounds (C2) -/

/-- The configuration of the C2 counterexample: default retries and delays,
but `BackoffDelayFactor` set to `0` (any factor below 1 works). -/
def c2CexCfg : BackoffCfg := ⟨3, 4, 60, 0⟩

/-- C2 counterexample: with `minDelay = 4`, `maxDelay = 60`, `factor = 0`,
attempt `1` and random draw `0`, the retry is permitted (`1 < 3`) but the
computed delay (2s in nanoseconds) violates the claimed bounds: it is below
`minDelay` and outside `[min + (base-min)/2, min + (base-min)]`. -/
theorem c2_counterexample :
    backoffOk c2CexCfg.maxRetries 1 = true ∧
    ¬ (nanos c2CexCfg.backoffMinDelay +
          (backoffBase c2CexCfg 1 - nanos c2CexCfg.backoffMinDelay) / 2
            ≤ backoffDelay c2CexCfg 1 0 ∧
       backoffDelay c2CexCfg 1 0
            ≤ nanos c2CexCfg.backoffMinDelay +
              (backoffBase c2CexCfg 1 - nanos c2CexCfg.backoffMinDelay) ∧
       nanos c2CexCfg.backoffMinDelay ≤ backoffDelay c2CexCfg 1 0 ∧
       backoffDelay c2CexCfg 1 0 ≤ nanos c2CexCfg.backoffMaxDelay) := by
  constructor
  · decide
  · intro h
    norm_num [backoffDelay, backoffBase, nanos, c2CexCfg] at h

/-- C2 (amended): for attempt `a`, `Backoff` permits a retry exactly when
`a < maxRetries`; and for sane configurations (`0 ≤ minDelay ≤ maxDelay`,
`factor ≥ 1`) with random draw `r ∈ [0,1)`, the base delay is
`min(minDelay * factor^a, maxDelay)` and the computed delay lies in
`[minDelay + (base-minDelay)/2, minDelay + (base-minDelay)]`, hence always
between `minDelay` and `maxDelay` (all in nanoseconds). -/
theorem c2_backoff_delay_bounds (cfg : BackoffCfg) (a : Nat) (r : ℚ)
    (hmin : 0 ≤ cfg.backoffMinDelay)
    (hminmax : cfg.backoffMinDelay ≤ cfg.backoffMaxDelay)
    (hfac : 1 ≤ cfg.backoffDelayFactor)
    (hr0 : 0 ≤ r) (hr1 : r < 1) :
    (backoffOk cfg.maxRetries a = true ↔ (a : Int) < cfg.maxRetries) ∧
    backoffBase cfg a
        = min (nanos cfg.backoffMinDelay * cfg.backoffDelayFactor ^ a)
            (nanos cfg.backoffMaxDelay) ∧
    nanos cfg.backoffMinDelay + (backoffBase cfg a - nanos cfg.backoffMinDelay) / 2
        ≤ backoffDelay cfg a r ∧
    backoffDelay cfg a r
        ≤ nanos cfg.backoffMinDelay + (backoffBase cfg a - nanos cfg.backoffMinDelay) ∧
    nanos cfg.backoffMinDelay ≤ backoffDelay cfg a r ∧
    backoffDelay cfg a r ≤ nanos cfg.backoffMaxDelay := by
  have hmnQ : (0 : ℚ) ≤ nanos cfg.backoffMinDelay := by
    have h1 : (0 : ℚ) ≤ (cfg.backoffMinDelay : ℚ) := by exact_mod_cast hmin
    unfold nanos
    nlinarith
  have hmxQ : nanos cfg.backoffMinDelay ≤ nanos cfg.backoffMaxDelay := by
    have h1 : (cfg.backoffMinDelay : ℚ) ≤ (cfg.backoffMaxDelay : ℚ) := by exact_mod_cast hminmax
    unfold nanos
    nlinarith
  have hfa : (1 : ℚ) ≤ cfg.backoffDelayFactor ^ a := by
    induction a with
    | zero => simp
    | succ n ihn =>
        rw [pow_succ]
        nlinarith
  have hbase_lo : nanos cfg.backoffMinDelay ≤ backoffBase cfg a := by
    unfold backoffBase
    dsimp only
    split
    · exact hmxQ
    · nlinarith
  have hbase_hi : backoffBase cfg a ≤ nanos cfg.backoffMaxDelay := by
    unfold backoffBase
    dsimp only
    split
    · exact le_refl _
    · exact le_of_not_lt (by assumption)
  have hbase_eq : backoffBase cfg a
      = min (nanos cfg.backoffMinDelay * cfg.backoffDelayFactor ^ a)
          (nanos cfg.backoffMaxDelay) := by
    unfold backoffBase
    dsimp only
    split
    · exact (min_eq_right (le_of_lt (by assumption))).symm
    · exact (min_eq_left (le_of_not_lt (by assumption))).symm
  have hspan : (0 : ℚ) ≤ backoffBase cfg a - nanos cfg.backoffMinDelay := by linarith
  have hdelay : backoffDelay cfg a r
      = (r / 2 + 1 / 2) * (backoffBase cfg a - nanos cfg.backoffMinDelay)
        + nanos cfg.backoffMinDelay := rfl
  refine ⟨by simp [backoffOk], hbase_eq, ?_, ?_, ?_, ?_⟩
  · rw [hdelay]; nlinarith
  · rw [hdelay]; nlinarith
  · rw [hdelay]; nlinarith
  · rw [hdelay]; nlinarith

/-- The configuration used by the C2 witness: the library defaults
(`MaxRetries 3`, `BackoffMinDelay 4`, `BackoffMaxDelay 60`, factor `3`). -/
def c2WitCfg : BackoffCfg := ⟨3, 4, 60, 3⟩

/-- Witness for `c2_backoff_delay_bounds` at the default configuration,
attempt 1 and random draw 1/2. -/
theorem c2_backoff_delay_bounds_witness :
    (backoffOk c2WitCfg.maxRetries 1 = true ↔ ((1 : Nat) : Int) < c2WitCfg.maxRetries) ∧
    backoffBase c2WitCfg 1
        = min (nanos c2WitCfg.backoffMinDelay * c2WitCfg.backoffDelayFactor ^ 1)
            (nanos c2WitCfg.backoffMaxDelay) ∧
    nanos c2WitCfg.backoffMinDelay + (backoffBase c2WitCfg 1 - nanos c2WitCfg.backoffMinDelay) / 2
        ≤ backoffDelay c2WitCfg 1 (1 / 2) ∧
    backoffDelay c2WitCfg 1 (1 / 2)
        ≤ nanos c2WitCfg.backoffMinDelay +
            (backoffBase c2WitCfg 1 - nanos c2WitCfg.backoffMinDelay) ∧
    nanos c2WitCfg.backoffMinDelay ≤ backoffDelay c2WitCfg 1 (1 / 2) ∧
    backoffDelay c2WitCfg 1 (1 / 2) ≤ nanos c2WitCfg.backoffMaxDelay :=
  c2_backoff_delay_bounds c2WitCfg 1 (1 / 2) (by decide) (by decide) (by norm_num [c2WitCfg])
    (by norm_num) (by norm_num)

/-! ## Authentication decision (C5) and the refresh flag (C4) -/

/-- C5: `Authenticate` calls `Login` exactly when the stored token is empty;
otherwise it calls `Refresh` exactly when the time elapsed since
`LastRefresh` exceeds 480 seconds; otherwise it makes no call, leaves the
state unchanged and returns no error. -/
theorem c5_authenticate_decision (st : ClientState) (now : Int)
    (loginOut refreshOut : ClientState × Option DoErr) :
    (st.token = "" →
        Authenticate st now loginOut refreshOut = (loginOut.1, loginOut.2, .login) ∧
        authDecision st now = .login) ∧
    (st.token ≠ "" → now - st.lastRefresh > authThreshold →
        Authenticate st now loginOut refreshOut = (refreshOut.1, refreshOut.2, .refresh) ∧
        authDecision st now = .refresh) ∧
    (st.token ≠ "" → ¬ (now - st.lastRefresh > authThreshold) →
        Authenticate st now loginOut refreshOut = (st, none, .nocall) ∧
        authDecision st now = .nocall) := by
  refine ⟨fun h1 => ?_, fun h1 h2 => ?_, fun h1 h2 => ?_⟩
  · constructor <;> simp [Authenticate, authDecision, h1]
  · constructor <;> simp [Authenticate, authDecision, h1, h2]
  · constructor <;> simp [Authenticate, authDecision, h1, h2]

/-- Witness for `c5_authenticate_decision`: a fresh token (`"tok"`, refreshed
at time 0, now = 5ns) leads to no authentication call and no error. -/
theorem c5_authenticate_decision_witness :
    Authenticate ⟨"tok", 0⟩ 5 (⟨"x", 1⟩, none) (⟨"y", 2⟩, none) = (⟨"tok", 0⟩, none, .nocall) ∧
    authDecision ⟨"tok", 0⟩ 5 = .nocall :=
  (c5_authenticate_decision ⟨"tok", 0⟩ 5 (⟨"x", 1⟩, none) (⟨"y", 2⟩, none)).2.2
    (by decide) (by decide)

/-- C4 (code-bug evidence): the authentication step run by `Get`
(src/client.go:237) does not depend on the request at all — in particular a
request built with `NoRefresh` (`Refresh = false`) still triggers the
login/refresh decision; with a held token whose last refresh is 481 seconds
old, a `Get` issued with `NoRefresh` still performs a `Refresh` call.
`Req.Refresh` is never read anywhere in src/, contradicting the field's
documentation (src/req.go:53-54, 62-66). -/
theorem c4_refresh_flag_ignored :
    (∀ (st : ClientState) (now : Int) (req : Req),
        getAuthDecision st now req = authDecision st now) ∧
    (NewReqFlags [NoRefresh]).refresh = false ∧
    getAuthDecision ⟨"tok", 0⟩ (481 * 1000000000) (NewReqFlags [NoRefresh]) = .refresh := by
  refine ⟨fun st now req => rfl, rfl, ?_⟩
  show authDecision ⟨"tok", 0⟩ (481 * 1000000000) = .refresh
  simp [authDecision, authThreshold]

/-! ## Stepping the Do retry loop -/

theorem doLoop_step_break (mr : Int) (tr : Nat → Attempt) (a : Nat) (s : Int) (b : Json)
    (h : tr a = .httpRes s b) (hb : breakStatus s = true) :
    doLoop mr tr a = { res := b, err := none, sleeps := 0, tries := 1 } := by
  rw [doLoop, h]
  simp [hb]

theorem doLoop_step_retry_httpRes (mr : Int) (tr : Nat → Attempt) (a : Nat) (s : Int) (b : Json)
    (h : tr a = .httpRes s b) (hb : breakStatus s = false) (hbk : backoffOk mr a = true) :
    doLoop mr tr a
      = { res := (doLoop mr tr (a + 1)).res, err := (doLoop mr tr (a + 1)).err,
          sleeps := (doLoop mr tr (a + 1)).sleeps + 1,
          tries := (doLoop mr tr (a + 1)).tries + 1 } := by
  rw [doLoop, h]
  simp [hb, hbk]

theorem doLoop_step_fail_httpRes (mr : Int) (tr : Nat → Attempt) (a : Nat) (s : Int) (b : Json)
    (h : tr a = .httpRes s b) (hb : breakStatus s = false) (hbk : backoffOk mr a = false) :
    doLoop mr tr a = { res := .null, err := some (.statusErr s), sleeps := 0, tries := 1 } := by
  rw [doLoop, h]
  simp [hb, hbk]

theorem doLoop_step_retry_connErr (mr : Int) (tr : Nat → Attempt) (a : Nat) (msg : String)
    (h : tr a = .connErr msg) (hbk : backoffOk mr a = true) :
    doLoop mr tr a
      = { res := (doLoop mr tr (a + 1)).res, err := (doLoop mr tr (a + 1)).err,
          sleeps := (doLoop mr tr (a + 1)).sleeps + 1,
          tries := (doLoop mr tr (a + 1)).tries + 1 } := by
  rw [doLoop, h]
  simp [hbk]

theorem doLoop_step_fail_connErr (mr : Int) (tr : Nat → Attempt) (a : Nat) (msg : String)
    (h : tr a = .connErr msg) (hbk : backoffOk mr a = false) :
    doLoop mr tr a = { res := .null, err := some (.connErr msg), sleeps := 0, tries := 1 } := by
  rw [doLoop, h]
  simp [hbk]

/-! ## Claims on the retry loop -/

/-- C1: a response whose status is in `{500,501,502,503,504,405}` (exactly
the complement of the loop-break test) is retried under the Backoff policy:
when `Backoff` allows it the loop sleeps once and continues with the next
attempt, when `Backoff` refuses it the loop returns a status error; any
other status ends the loop immediately with that response and no sleep. -/
theorem c1_retryable_status (mr : Int) (tr : Nat → Attempt) (a : Nat) (s : Int) (b : Json)
    (h : tr a = .httpRes s b) :
    (breakStatus s = false ↔ (500 ≤ s ∧ s ≤ 504) ∨ s = 405) ∧
    (((500 ≤ s ∧ s ≤ 504) ∨ s = 405) →
        (backoffOk mr a = true →
            doLoop mr tr a
              = { res := (doLoop mr tr (a + 1)).res, err := (doLoop mr tr (a + 1)).err,
                  sleeps := (doLoop mr tr (a + 1)).sleeps + 1,
                  tries := (doLoop mr tr (a + 1)).tries + 1 }) ∧
        (backoffOk mr a = false →
            doLoop mr tr a
              = { res := .null, err := some (.statusErr s), sleeps := 0, tries := 1 })) ∧
    (¬ ((500 ≤ s ∧ s ≤ 504) ∨ s = 405) →
        doLoop mr tr a = { res := b, err := none, sleeps := 0, tries := 1 }) := by
  have hiff : breakStatus s = false ↔ (500 ≤ s ∧ s ≤ 504) ∨ s = 405 := by
    simp [breakStatus]
    omega
  refine ⟨hiff, fun hs => ⟨fun hbk => ?_, fun hbk => ?_⟩, fun hs => ?_⟩
  · exact doLoop_step_retry_httpRes mr tr a s b h (hiff.mpr hs) hbk
  · exact doLoop_step_fail_httpRes mr tr a s b h (hiff.mpr hs) hbk
  · refine doLoop_step_break mr tr a s b h ?_
    cases hb : breakStatus s with
    | true => rfl
    | false => exact absurd (hiff.mp hb) hs

/-- Witness for `c1_retryable_status`: a 503 at attempt 0 with `MaxRetries 0`
(`Backoff` refuses) returns the status error. -/
theorem c1_retryable_status_witness :
    (breakStatus 503 = false ↔ (500 ≤ (503 : Int) ∧ (503 : Int) ≤ 504) ∨ (503 : Int) = 405) ∧
    (((500 ≤ (503 : Int) ∧ (503 : Int) ≤ 504) ∨ (503 : Int) = 405) →
        (backoffOk 0 0 = true →
            doLoop 0 (fun _ => .httpRes 503 .null) 0
              = { res := (doLoop 0 (fun _ => .httpRes 503 .null) 1).res,
                  err := (doLoop 0 (fun _ => .httpRes 503 .null) 1).err,
                  sleeps := (doLoop 0 (fun _ => .httpRes 503 .null) 1).sleeps + 1,
                  tries := (doLoop 0 (fun _ => .httpRes 503 .null) 1).tries + 1 }) ∧
        (backoffOk 0 0 = false →
            doLoop 0 (fun _ => .httpRes 503 .null) 0
              = { res := .null, err := some (.statusErr 503), sleeps := 0, tries := 1 })) ∧
    (¬ ((500 ≤ (503 : Int) ∧ (503 : Int) ≤ 504) ∨ (503 : Int) = 405) →
        doLoop 0 (fun _ => .httpRes 503 .null) 0
          = { res := .null, err := none, sleeps := 0, tries := 1 }) :=
  c1_retryable_status 0 (fun _ => .httpRes 503 .null) 0 503 .null rfl

/-- C3: when the loop ends on attempt 0 with a response whose body holds a
non-empty code at `imdata.0.error.attributes.code`, `Do` returns that parsed
body together with a JSON error — regardless of the (non-retryable) HTTP
status, 200 included — and `Login` then returns that error without touching
the client state; when the code is empty, `Do` returns the body with no
error. -/
theorem c3_error_envelope (mr : Int) (tr : Nat → Attempt) (s : Int) (b : Json)
    (h0 : tr 0 = .httpRes s b) (hs : breakStatus s = true) :
    (errorCode b ≠ "" →
        Do mr tr = { res := b, err := some (.jsonErr b), sleeps := 0, tries := 1 } ∧
        ∀ (st : ClientState) (now : Int), Login st now mr tr = (st, some (.jsonErr b))) ∧
    (errorCode b = "" →
        Do mr tr = { res := b, err := none, sleeps := 0, tries := 1 }) := by
  have hl := doLoop_step_break mr tr 0 s b h0 hs
  constructor
  · intro hc
    have hdo : Do mr tr = { res := b, err := some (.jsonErr b), sleeps := 0, tries := 1 } := by
      unfold Do
      rw [hl]
      simp [hc]
    refine ⟨hdo, fun st now => ?_⟩
    unfold Login
    rw [hdo]
  · intro hc
    unfold Do
    rw [hl]
    simp [hc]

/-- Witness for `c3_error_envelope`: an HTTP 200 response carrying error code
`"123"` in the envelope makes `Do` and `Login` return a JSON error. -/
theorem c3_error_envelope_witness :
    Do 3 (fun _ => .httpRes 200 sampleErrBody)
      = { res := sampleErrBody, err := some (.jsonErr sampleErrBody), sleeps := 0, tries := 1 } ∧
    Login ⟨"", 0⟩ 7 3 (fun _ => .httpRes 200 sampleErrBody)
      = (⟨"", 0⟩, some (.jsonErr sampleErrBody)) := by
  have h := (c3_error_envelope 3 (fun _ => .httpRes 200 sampleErrBody) 200 sampleErrBody rfl
    (by decide)).1 (by decide)
  exact ⟨h.1, h.2 ⟨"", 0⟩ 7⟩

/-- C9: a first response with a status outside the retryable set (404
included) and no error-envelope code makes `Do` return the parsed body with
no error, after a single attempt and no sleep. -/
theorem c9_nonretryable_nil_error (mr : Int) (tr : Nat → Attempt) (s : Int) (b : Json)
    (h0 : tr 0 = .httpRes s b)
    (hs : ¬ ((500 ≤ s ∧ s ≤ 504) ∨ s = 405))
    (hcode : errorCode b = "") :
    Do mr tr = { res := b, err := none, sleeps := 0, tries := 1 } := by
  have hb : breakStatus s = true := by
    simp [breakStatus]
    omega
  unfold Do
  rw [doLoop_step_break mr tr 0 s b h0 hb]
  simp [hcode]

/-- Witness for `c9_nonretryable_nil_error`: a 404 with an empty body yields
a nil error. -/
theorem c9_nonretryable_nil_error_witness :
    Do 3 (fun _ => .httpRes 404 .null) = { res := .null, err := none, sleeps := 0, tries := 1 } :=
  c9_nonretryable_nil_error 3 (fun _ => .httpRes 404 .null) 404 .null rfl (by decide) rfl

/-- Auxiliary for C6: when every attempt fails with the same connection
error, the loop started at attempt `a` (with `(mr - a).toNat` retries left)
performs exactly that many sleeps and one more attempt, then returns the
error. -/
theorem doLoop_connErr_all (mr : Int) (tr : Nat → Attempt) (msg : String)
    (h : ∀ n, tr n = .connErr msg) :
    ∀ (fuel a : Nat), (mr - (a : Int)).toNat = fuel → (a : Int) ≤ mr →
      doLoop mr tr a
        = { res := .null, err := some (.connErr msg), sleeps := fuel, tries := fuel + 1 } := by
  intro fuel
  induction fuel with
  | zero =>
      intro a hfa ha
      have hbk : backoffOk mr a = false := by
        simp [backoffOk]
        omega
      exact doLoop_step_fail_connErr mr tr a msg (h a) hbk
  | succ n ih =>
      intro a hfa ha
      have hbk : backoffOk mr a = true := by
        simp [backoffOk]
        omega
      have hrec := ih (a + 1) (by omega) (by omega)
      rw [doLoop_step_retry_connErr mr tr a msg (h a) hbk, hrec]

/-- C6: when every transport attempt fails with a connection error and
`MaxRetries` is non-negative, `Do` returns that error after exactly
`MaxRetries` backoff sleeps and `MaxRetries + 1` transport attempts. -/
theorem c6_transport_exhaustion (mr : Int) (tr : Nat → Attempt) (msg : String)
    (hmr : 0 ≤ mr) (h : ∀ n, tr n = .connErr msg) :
    Do mr tr
      = { res := .null, err := some (.connErr msg), sleeps := mr.toNat,
          tries := mr.toNat + 1 } := by
  have hl := doLoop_connErr_all mr tr msg h mr.toNat 0 (by omega) (by omega)
  unfold Do
  rw [hl]

/-- Witness for `c6_transport_exhaustion`: two allowed retries and a
permanently refused connection give 2 sleeps and 3 attempts. -/
theorem c6_transport_exhaustion_witness :
    Do 2 (fun _ => .connErr "refused")
      = { res := .null, err := some (.connErr "refused"), sleeps := 2, tries := 3 } :=
  c6_transport_exhaustion 2 (fun _ => .connErr "refused") "refused" (by decide) (fun _ => rfl)

end Nxos

